import Mathlib

/-!
Verification of the semantic-analysis visitors of a COOL compiler
(`src/compiler/utils/visitors_definitions.py`).

The expression tree, the visitor dispatch and the four pass visitors are
translated from `visitors_definitions.py`.  The `programContext` operations
(`context.py`) and the AST node attributes (`AST_definitions.py`) are not part
of the given sources; those definitions are modelled from the specification and
carry a doc comment saying so.

The type-checking visitor is embedded as a fuel-indexed evaluator
`tcVisitF`: the fuel decreases by one at every `visit` call, mirroring the
Python recursion (running out of fuel corresponds to CPython raising
RecursionError).  For any fuel larger than the height of the tree the
evaluator agrees with the terminating Python recursion; the concrete
evaluations below use such fuels.  Every visit returns, besides the Python
return value, the final
state of the (mutable) environment dictionary that was passed in and a trace
of the `visit` calls and context checks that were performed, so that claims
about evaluation order and omitted evaluations are statements about the
trace.
-/

namespace Cool

/-- Kinds of the concrete subclasses of `NodeBinaryOperation`.  The first five
appear in `visitors_definitions.py`; `lt` stands for the further binary node
kinds that the specification says exist but the binary-operation dispatch does
not handle ("other binary node kinds fall through without a defined result"). -/
inductive BinOpKind where
  | add
  | sub
  | mult
  | div
  | eq
  | lt
deriving DecidableEq, Repr

/-- Modelled from the spec: a formal parameter of a method declaration, with
the fields (`idName`, `_type`, `line`, `column`) that
`visitors_definitions.py` reads off a `formal_param`. -/
structure Formal where
  idName : String
  type_ : String
  line : Nat
  column : Nat
deriving DecidableEq, Repr

/-- Modelled from the spec: the AST produced by the external parser
(`AST_definitions.py` is not among the given sources).  One constructor per
node class that the visitors of `visitors_definitions.py` name, holding the
fields those visitors read.  `NodeExpr` is an abstract base class and is not a
parser output, so it has no constructor here. -/
inductive Node where
  | program (class_list : List Node) (line column : Nat)
  | cls (idName parent : String) (attributes methods : List Node) (line column : Nat)
  | attr (idName type_ : String) (expr : Node) (line column : Nat)
  | classMethod (idName : String) (formal_param_list : List Formal)
      (returnType : String) (body : Node) (line column : Nat)
  | letComplex (nestedLets : List Node) (body : Node) (line column : Nat)
  | letN (idName type_ : String) (body : Node) (line column : Nat)
  | assignment (idName : String) (expr : Node) (line column : Nat)
  | binOp (kind : BinOpKind) (first second : Node) (line column : Nat)
  | newObject (type_ : String) (line column : Nat)
  | intL (value : Int) (line column : Nat)
  | boolL (value : Bool) (line column : Nat)
  | strL (value : String) (line column : Nat)
  | boolComplement (expr : Node) (line column : Nat)
  | objectRef (idName : String) (line column : Nat)
  | dynamicDispatch (expr : Node) (method : String) (arguments : List Node) (line column : Nat)
  | selfRef (line column : Nat)

/-- Python class name of a binary-operation node, by kind. -/
def binOpClsname : BinOpKind → String
  | .add => "NodeAddition"
  | .sub => "NodeSubtraction"
  | .mult => "NodeMultiplication"
  | .div => "NodeDivision"
  | .eq => "NodeEqual"
  | .lt => "NodeLessThan"

/-- Modelled from the spec: the `clsname` attribute of an AST node, i.e. the
Python class name used by the reflection dispatch of `NodeVisitor.visit`. -/
def clsname : Node → String
  | .program .. => "NodeProgram"
  | .cls .. => "NodeClass"
  | .attr .. => "NodeAttr"
  | .classMethod .. => "NodeClassMethod"
  | .letComplex .. => "NodeLetComplex"
  | .letN .. => "NodeLet"
  | .assignment .. => "NodeAssignment"
  | .binOp k _ _ _ _ => binOpClsname k
  | .newObject .. => "NodeNewObject"
  | .intL .. => "NodeInteger"
  | .boolL .. => "NodeBoolean"
  | .strL .. => "NodeString"
  | .boolComplement .. => "NodeBooleanComplement"
  | .objectRef .. => "NodeObject"
  | .dynamicDispatch .. => "NodeDynamicDispatch"
  | .selfRef .. => "NodeSelf"

/-- Whether the first base class of the node is `NodeBinaryOperation`
(the test performed at the top of `NodeVisitor.visit`). -/
def isBinOpNode : Node → Bool
  | .binOp .. => true
  | _ => false

/-- Source line of a node (every AST node carries a position). -/
def lineOf : Node → Nat
  | .program _ l _ => l
  | .cls _ _ _ _ l _ => l
  | .attr _ _ _ l _ => l
  | .classMethod _ _ _ _ l _ => l
  | .letComplex _ _ l _ => l
  | .letN _ _ _ l _ => l
  | .assignment _ _ l _ => l
  | .binOp _ _ _ l _ => l
  | .newObject _ l _ => l
  | .intL _ l _ => l
  | .boolL _ l _ => l
  | .strL _ l _ => l
  | .boolComplement _ l _ => l
  | .objectRef _ l _ => l
  | .dynamicDispatch _ _ _ l _ => l
  | .selfRef l _ => l

/-- Source column of a node. -/
def columnOf : Node → Nat
  | .program _ _ c => c
  | .cls _ _ _ _ _ c => c
  | .attr _ _ _ _ c => c
  | .classMethod _ _ _ _ _ c => c
  | .letComplex _ _ _ c => c
  | .letN _ _ _ _ c => c
  | .assignment _ _ _ c => c
  | .binOp _ _ _ _ c => c
  | .newObject _ _ c => c
  | .intL _ _ c => c
  | .boolL _ _ c => c
  | .strL _ _ c => c
  | .boolComplement _ _ c => c
  | .objectRef _ _ c => c
  | .dynamicDispatch _ _ _ _ c => c
  | .selfRef _ c => c

/-- The `idName` attribute of a node (empty for node kinds without one). -/
def idNameOf : Node → String
  | .cls id _ _ _ _ _ => id
  | .attr id _ _ _ _ => id
  | .classMethod id _ _ _ _ _ => id
  | .letN id _ _ _ _ => id
  | .assignment id _ _ _ => id
  | .objectRef id _ _ => id
  | _ => ""

/-- The declared parent name of a class node (the root name otherwise). -/
def parentOf : Node → String
  | .cls _ p _ _ _ _ => p
  | _ => "Object"

/-- The `formal_param_list` attribute of a method node. -/
def formalsOf : Node → List Formal
  | .classMethod _ fs _ _ _ _ => fs
  | _ => []

/-- A semantic diagnostic (`error` in `errors.py`): modelled from the spec as
a kind together with a source position. -/
structure error where
  kind : String
  line : Nat
  column : Nat
deriving DecidableEq, Repr

/-- Registry entry for one class (`ClassInfo`): resolved parent name (none
only for the root), attribute signatures and method signatures. -/
structure ClassInfo where
  parent : Option String
  attributes : List (String × String)
  methods : List (String × (List String × String))
deriving DecidableEq, Repr

/-- The type registry `programContext.types`: an insertion-ordered dictionary
from class name to `ClassInfo`, modelled as an association list with unique
keys. -/
abbrev Registry := List (String × ClassInfo)

/-- A scope environment: an insertion-ordered dictionary from variable name to
the value the visitor stored for it (a type name, or Python `None`). -/
abbrev Env := List (String × Option String)

/-- The side table built by pass 1: class name to (line, column). -/
abbrev PosMap := List (String × (Nat × Nat))

/-- First value stored under a key in an ordered dictionary. -/
def lookupKey {α : Type} : List (String × α) → String → Option α
  | [], _ => none
  | (k1, v) :: rest, k => if k1 = k then some v else lookupKey rest k

/-- Python dictionary update `d[k] = v`: replaces the value in place if the
key is present, appends the pair otherwise. -/
def dictUpdate {α : Type} : List (String × α) → String → α → List (String × α)
  | [], k, v => [(k, v)]
  | (k1, v1) :: rest, k, v =>
      if k1 = k then (k, v) :: rest else (k1, v1) :: dictUpdate rest k v

/-- Modelled from the spec: the primitive leaf type names. -/
def primitiveTypes : List String := ["Int", "Bool", "String"]

/-- Modelled from the spec: the built-in root type plus the primitive leaf
types, pre-registered in the registry before pass 1 runs. -/
def initialContext : Registry :=
  [ ("Object", ⟨none, [], []⟩),
    ("Int", ⟨some "Object", [], []⟩),
    ("Bool", ⟨some "Object", [], []⟩),
    ("String", ⟨some "Object", [], []⟩) ]

/-- Ancestor chain of a type obtained by walking `parent` links, cut off by
fuel so that it is total even on a malformed registry. -/
def ancestorChain (reg : Registry) : Nat → String → List String
  | 0, _ => []
  | fuel + 1, t =>
      t :: (match lookupKey reg t with
            | some info =>
                match info.parent with
                | some p => ancestorChain reg fuel p
                | none => []
            | none => [])

/-- Modelled from the spec: type `a` conforms to type `b` iff `a` equals `b`
or `b` is an ancestor of `a` in the parent chain. -/
def conforms (reg : Registry) (a b : String) : Bool :=
  (ancestorChain reg (reg.length + 1) a).contains b

/-- Modelled from the spec: `createType` registers a new `ClassInfo` holding
the declared name and parent; it fails with `DuplicateType` if the name
already exists (which also covers the pre-registered reserved/primitive
names). -/
def createType (reg : Registry) (node : Node) : Option error × Registry :=
  if (lookupKey reg (idNameOf node)).isSome then
    (some ⟨"DuplicateType", lineOf node, columnOf node⟩, reg)
  else
    (none, reg ++ [(idNameOf node, ⟨some (parentOf node), [], []⟩)])

/-- Modelled from the spec: `getType` fails with `UnknownType` if the name is
absent from the registry. -/
def getType (reg : Registry) (idName : String) (pos : Nat × Nat) : Option error :=
  if (lookupKey reg idName).isSome then none
  else some ⟨"UnknownType", pos.1, pos.2⟩

/-- Modelled from the spec: `relateInheritance` records the parent edge of
`child`; it fails with `InvalidParent` if the parent is unknown, is a
primitive (final) type, or the edge would close a cycle, detected by walking
the parent chain from the parent name looking for `child`. -/
def relateInheritance (reg : Registry) (child : String) (parentName : Option String)
    (pos : Nat × Nat) : Sum error Registry :=
  match parentName with
  | none => .inl ⟨"InvalidParent", pos.1, pos.2⟩
  | some p =>
      if (lookupKey reg p).isNone then .inl ⟨"InvalidParent", pos.1, pos.2⟩
      else if primitiveTypes.contains p then .inl ⟨"InvalidParent", pos.1, pos.2⟩
      else if (ancestorChain reg (reg.length + 1) p).contains child then
        .inl ⟨"InvalidParent", pos.1, pos.2⟩
      else
        .inr (reg.map (fun q => if q.1 = child then (q.1, { q.2 with parent := some p }) else q))

/-- Modelled from the spec: `buildEnv` returns a fresh environment seeded
with all attributes visible on the type (inherited first, own last so own
takes precedence) plus the distinguished `wrapperType` binding for the
enclosing class itself. -/
def buildEnv (reg : Registry) (typeName : String) : Env :=
  let chain := (ancestorChain reg (reg.length + 1) typeName).reverse
  let env := chain.foldl
    (fun e t =>
      match lookupKey reg t with
      | some info => info.attributes.foldl (fun e2 a => dictUpdate e2 a.1 (some a.2)) e
      | none => e)
    []
  dictUpdate env "wrapperType" (some typeName)

/-- Modelled from the spec: `buildEnvForMethod` extends the environment with
the method formal parameters (into a fresh dictionary, since environments are
extended as snapshots); it fails with `DuplicateFormal` if two formals share
a name. -/
def buildEnvForMethod (node : Node) (env : Env) : Sum error Env :=
  let formals := formalsOf node
  if (formals.map (fun f => f.idName)).Nodup then
    .inr (formals.foldl (fun e f => dictUpdate e f.idName (some f.type_)) env)
  else
    .inl ⟨"DuplicateFormal", lineOf node, columnOf node⟩

/-- Python return value of an expression-level visit: a diagnostic object, a
type name (string), `None`, or a list of diagnostics (the class-level
visits return lists). -/
inductive RVal where
  | err (e : error)
  | ty (t : String)
  | noneV
  | errs (es : List error)
deriving DecidableEq, Repr

/-- `type(v) is error` in Python. -/
def isErrRv : RVal → Bool
  | .err _ => true
  | _ => false

/-- The value as an optional type name: what a context check receives when
the visitor passes it a visit result (a string, or `None`). -/
def rvalToOpt : RVal → Option String
  | .ty t => some t
  | _ => none

/-- The singleton diagnostic list a class-level loop appends for one member
result (`if type(result) is error: errors.append(result)`). -/
def errListOf : RVal → List error
  | .err e => [e]
  | _ => []

/-- Modelled from the spec: `checkArithmetic` requires both operand types to
equal the primitive integer type exactly and yields it, else `TypeMismatch`. -/
def checkArithmetic (t1 t2 : Option String) (pos : Nat × Nat) : RVal :=
  if t1 = some "Int" ∧ t2 = some "Int" then .ty "Int"
  else .err ⟨"TypeMismatch", pos.1, pos.2⟩

/-- Modelled from the spec (the source rule the design notes flag):
`checkEqualOp` fails with `IllegalComparison` exactly when one side is a
primitive type and the other is not; otherwise the comparison is
boolean-typed. -/
def checkEqualOp (t1 t2 : Option String) (pos : Nat × Nat) : RVal :=
  let isPrim := fun (t : Option String) =>
    match t with
    | some s => primitiveTypes.contains s
    | none => false
  if isPrim t1 ≠ isPrim t2 then .err ⟨"IllegalComparison", pos.1, pos.2⟩
  else .ty "Bool"

/-- Modelled from the spec: the let-binding form of `checkAssign` requires
the initializer type to conform to the declared type of the binding, else
`TypeMismatch`; on success the declared type is the result. -/
def checkAssign (reg : Registry) (_idName : String) (declaredType : String)
    (exprType : Option String) (pos : Nat × Nat) : RVal :=
  match exprType with
  | some t => if conforms reg t declaredType then .ty declaredType
              else .err ⟨"TypeMismatch", pos.1, pos.2⟩
  | none => .err ⟨"TypeMismatch", pos.1, pos.2⟩

/-- Modelled from the spec: the plain-assignment form of `checkAssign` fails
with `UnknownVariable` if the target has no binding, with `TypeMismatch` if
the expression type does not conform to the binding type, and yields the
expression type on success. -/
def checkAssignNode (reg : Registry) (target : String) (exprType : Option String)
    (env : Env) (pos : Nat × Nat) : RVal :=
  match lookupKey env target with
  | none => .err ⟨"UnknownVariable", pos.1, pos.2⟩
  | some declOpt =>
      match declOpt, exprType with
      | some d, some t =>
          if conforms reg t d then .ty t else .err ⟨"TypeMismatch", pos.1, pos.2⟩
      | _, _ => .err ⟨"TypeMismatch", pos.1, pos.2⟩

/-- Modelled from the spec: `searchValue` looks the name up in the
environment and fails with `UnknownVariable` if it is absent. -/
def searchValue (env : Env) (idName : String) (pos : Nat × Nat) : RVal :=
  match lookupKey env idName with
  | none => .err ⟨"UnknownVariable", pos.1, pos.2⟩
  | some (some t) => .ty t
  | some none => .noneV

/-- Modelled from the spec: `checkReturnType` requires the body result type
to conform to the declared return type, else `ReturnTypeMismatch`. -/
def checkReturnType (reg : Registry) (returnType : String) (bodyType : Option String)
    (pos : Nat × Nat) : RVal :=
  match bodyType with
  | some t => if conforms reg t returnType then .ty returnType
              else .err ⟨"ReturnTypeMismatch", pos.1, pos.2⟩
  | none => .err ⟨"ReturnTypeMismatch", pos.1, pos.2⟩

/-- First method of the given name found walking the ancestor chain of a
type. -/
def findMethod (reg : Registry) (t m : String) : Option (List String × String) :=
  ((ancestorChain reg (reg.length + 1) t).filterMap
    (fun a => (lookupKey reg a).bind (fun info => lookupKey info.methods m))).head?

/-- Modelled from the spec: `checkDynamicDispatch` requires the receiver type
(or an ancestor) to declare the method (`UnknownMethod`), the arity to match
(`ArityMismatch`) and each argument type to conform to the corresponding
formal type (`ArgumentTypeMismatch`); on success the result is the declared
return type. -/
def checkDynamicDispatch (reg : Registry) (recvType : Option String) (m : String)
    (argTypes : List (Option String)) (pos : Nat × Nat) : RVal :=
  match recvType with
  | none => .err ⟨"UnknownMethod", pos.1, pos.2⟩
  | some t =>
      match findMethod reg t m with
      | none => .err ⟨"UnknownMethod", pos.1, pos.2⟩
      | some (formals, ret) =>
          if argTypes.length ≠ formals.length then .err ⟨"ArityMismatch", pos.1, pos.2⟩
          else if (argTypes.zip formals).all
              (fun af =>
                match af.1 with
                | some ta => conforms reg ta af.2
                | none => false) then .ty ret
          else .err ⟨"ArgumentTypeMismatch", pos.1, pos.2⟩

/-- One observable event of a type-checking run: a `visit` call (identified
by the visited node class name and position) or an invocation of one of the
context checks whose call the claims talk about. -/
inductive TraceEv where
  | visitN (clsname : String) (line column : Nat)
  | callCheckReturnType (methodName : String) (bodyType : Option String)
  | callCheckDynamicDispatch (recvType : Option String) (method : String)
      (argTypes : List (Option String))
deriving DecidableEq, Repr

/-- Outcome of a visit: a returned Python value, or a raised exception. -/
inductive Outcome where
  | ret (v : RVal)
  | exn (msg : String)
deriving DecidableEq, Repr

/-- Result of one visit: outcome, final state of the environment dictionary
that was passed in, and the trace of events the visit produced. -/
abbrev VisitRes := Outcome × Env × List TraceEv

/-- Loop body of the two member loops of
`TypeCheckerVisitor.visit_NodeClass`: visit the member with the running
environment and append the result exactly when it is a diagnostic; once an
exception was raised the remaining members are skipped (the exception
propagates). -/
def memberStep (visit : Node → Env → VisitRes)
    (st : Option String × List error × Env × List TraceEv) (m : Node) :
    Option String × List error × Env × List TraceEv :=
  match st with
  | (some msg, es, e, tr) => (some msg, es, e, tr)
  | (none, es, e, tr) =>
      match visit m e with
      | (.exn msg, e1, tr1) => (some msg, es, e1, tr ++ tr1)
      | (.ret v, e1, tr1) => (none, es ++ errListOf v, e1, tr ++ tr1)

/-- Loop body of `TypeCheckerVisitor.visit_NodeLetComplex`: re-copy the
caller environment (`newEnv = previousEnv.copy()`), visit the nested let
with the copy, return early on a diagnostic, otherwise store the result
under the binding name.  The state carries the early-exit flag (`inl` an
exception message, `inr` a diagnostic), the last value of `newEnv`, and the
accumulated trace. -/
def chainStep (visit : Node → Env → VisitRes) (baseEnv : Env)
    (st : Option (Sum String error) × Env × List TraceEv) (l : Node) :
    Option (Sum String error) × Env × List TraceEv :=
  match st with
  | (some r, e, tr) => (some r, e, tr)
  | (none, _, tr) =>
      match visit l baseEnv with
      | (.exn msg, e1, tr1) => (some (.inl msg), e1, tr ++ tr1)
      | (.ret v, e1, tr1) =>
          match v with
          | .err er => (some (.inr er), e1, tr ++ tr1)
          | _ => (none, dictUpdate e1 (idNameOf l) (rvalToOpt v), tr ++ tr1)

/-- Loop body of the argument loop of
`TypeCheckerVisitor.visit_NodeDynamicDispatch`: visit the argument with the
running environment, return early on a diagnostic, otherwise append the
result to `argTypes`. -/
def argStep (visit : Node → Env → VisitRes)
    (st : Sum String (Sum error (List (Option String))) × Env × List TraceEv) (a : Node) :
    Sum String (Sum error (List (Option String))) × Env × List TraceEv :=
  match st with
  | (.inl msg, e, tr) => (.inl msg, e, tr)
  | (.inr (.inl er), e, tr) => (.inr (.inl er), e, tr)
  | (.inr (.inr ts), e, tr) =>
      match visit a e with
      | (.exn msg, e1, tr1) => (.inl msg, e1, tr ++ tr1)
      | (.ret v, e1, tr1) =>
          match v with
          | .err er => (.inr (.inl er), e1, tr ++ tr1)
          | _ => (.inr (.inr (ts ++ [rvalToOpt v])), e1, tr ++ tr1)

/-- The dispatch `NodeVisitor.visit` specialised to `TypeCheckerVisitor`,
fuel-indexed: one unit of fuel is consumed per `visit` call, and exhausting
it models CPython raising `RecursionError`.  Each clause is the
`visit_...` handler the reflection dispatch selects for that node class
(binary-operation subclasses are routed to `visit_NodeBinaryOperation` by
the base-class test).  A `visit_NodeProgram` reached through this path
would receive the unexpected `previousEnv` keyword and raise `TypeError`,
as recorded in its clause; the pass-4 entry point that visits a program
without keyword arguments is not needed by any claim and is not embedded. -/
def tcVisitF (reg : Registry) : Nat → Node → Env → VisitRes
  | 0, _, env => (.exn "RecursionError: maximum recursion depth exceeded", env, [])
  | _ + 1, .program _ ln col, env =>
      (.exn "TypeError: visit_NodeProgram got an unexpected keyword argument previousEnv",
       env, [.visitN "NodeProgram" ln col])
  | fuel + 1, .cls _ _ attrs methods ln col, env =>
      let stA := attrs.foldl (memberStep (fun m e => tcVisitF reg fuel m e)) (none, [], env, [])
      let stB := methods.foldl (memberStep (fun m e => tcVisitF reg fuel m e)) stA
      match stB with
      | (some msg, _, envF, trF) => (.exn msg, envF, .visitN "NodeClass" ln col :: trF)
      | (none, es, envF, trF) => (.ret (.errs es), envF, .visitN "NodeClass" ln col :: trF)
  | fuel + 1, .attr _ _ expr ln col, env =>
      match tcVisitF reg fuel expr env with
      | (out, env1, tr1) => (out, env1, .visitN "NodeAttr" ln col :: tr1)
  | fuel + 1, .classMethod idN formals retT body ln col, env =>
      match buildEnvForMethod (.classMethod idN formals retT body ln col) env with
      | .inl e => (.ret (.err e), env, [.visitN "NodeClassMethod" ln col])
      | .inr newEnv =>
          match tcVisitF reg fuel body newEnv with
          | (.exn msg, _, trB) => (.exn msg, env, .visitN "NodeClassMethod" ln col :: trB)
          | (.ret v, _, trB) =>
              match v with
              | .err er => (.ret (.err er), env, .visitN "NodeClassMethod" ln col :: trB)
              | _ =>
                  (.ret (checkReturnType reg retT (rvalToOpt v) (ln, col)), env,
                   .visitN "NodeClassMethod" ln col ::
                     (trB ++ [.callCheckReturnType idN (rvalToOpt v)]))
  | fuel + 1, .letComplex nestedLets body ln col, env =>
      match nestedLets with
      | [] => (.exn "NameError: name newEnv is not defined", env,
               [.visitN "NodeLetComplex" ln col])
      | _ :: _ =>
          match nestedLets.foldl (chainStep (fun m e => tcVisitF reg fuel m e) env)
              (none, env, []) with
          | (some (.inl msg), _, tr) => (.exn msg, env, .visitN "NodeLetComplex" ln col :: tr)
          | (some (.inr er), _, tr) =>
              (.ret (.err er), env, .visitN "NodeLetComplex" ln col :: tr)
          | (none, lastEnv, tr) =>
              match tcVisitF reg fuel body lastEnv with
              | (out, _, trB) =>
                  (out, env, .visitN "NodeLetComplex" ln col :: (tr ++ trB))
  | fuel + 1, .letN idN tyN bodyE ln col, env =>
      match tcVisitF reg fuel bodyE env with
      | (.exn msg, env1, tr1) => (.exn msg, env1, .visitN "NodeLet" ln col :: tr1)
      | (.ret v, env1, tr1) =>
          match v with
          | .err er => (.ret (.err er), env1, .visitN "NodeLet" ln col :: tr1)
          | _ =>
              let env2 := dictUpdate env1 idN (some tyN)
              (.ret (checkAssign reg idN tyN (rvalToOpt v) (lineOf bodyE, columnOf bodyE)),
               env2, .visitN "NodeLet" ln col :: tr1)
  | fuel + 1, .assignment idN expr ln col, env =>
      match tcVisitF reg fuel expr env with
      | (.exn msg, env1, tr1) => (.exn msg, env1, .visitN "NodeAssignment" ln col :: tr1)
      | (.ret v, env1, tr1) =>
          match v with
          | .err er => (.ret (.err er), env1, .visitN "NodeAssignment" ln col :: tr1)
          | _ =>
              (.ret (checkAssignNode reg idN (rvalToOpt v) env1 (ln, col)), env1,
               .visitN "NodeAssignment" ln col :: tr1)
  | fuel + 1, .binOp k f s ln col, env =>
      match tcVisitF reg fuel f env with
      | (.exn msg, env1, tr1) => (.exn msg, env1, .visitN (binOpClsname k) ln col :: tr1)
      | (.ret v1, env1, tr1) =>
          match tcVisitF reg fuel s env1 with
          | (.exn msg, env2, tr2) =>
              (.exn msg, env2, .visitN (binOpClsname k) ln col :: (tr1 ++ tr2))
          | (.ret v2, env2, tr2) =>
              let res : RVal :=
                match v1 with
                | .err e1 => .err e1
                | _ =>
                    match v2 with
                    | .err e2 => .err e2
                    | _ =>
                        if k = .add ∨ k = .sub ∨ k = .mult ∨ k = .div then
                          checkArithmetic (rvalToOpt v1) (rvalToOpt v2) (ln, col)
                        else if k = .eq then
                          checkEqualOp (rvalToOpt v1) (rvalToOpt v2) (ln, col)
                        else .noneV
              (.ret res, env2, .visitN (binOpClsname k) ln col :: (tr1 ++ tr2))
  | _ + 1, .newObject t ln col, env =>
      match getType reg t (ln, col) with
      | some e => (.ret (.err e), env, [.visitN "NodeNewObject" ln col])
      | none => (.ret (.ty t), env, [.visitN "NodeNewObject" ln col])
  | _ + 1, .intL _ ln col, env => (.ret (.ty "Int"), env, [.visitN "NodeInteger" ln col])
  | _ + 1, .boolL _ ln col, env => (.ret (.ty "Bool"), env, [.visitN "NodeBoolean" ln col])
  | _ + 1, .strL _ ln col, env => (.ret (.ty "String"), env, [.visitN "NodeString" ln col])
  | _ + 1, .boolComplement _ ln col, env =>
      (.ret (.ty "Bool"), env, [.visitN "NodeBooleanComplement" ln col])
  | _ + 1, .objectRef idN ln col, env =>
      (.ret (searchValue env idN (ln, col)), env, [.visitN "NodeObject" ln col])
  | fuel + 1, .dynamicDispatch e m args ln col, env =>
      match tcVisitF reg fuel e env with
      | (.exn msg, env1, tr1) =>
          (.exn msg, env1, .visitN "NodeDynamicDispatch" ln col :: tr1)
      | (.ret v0, env1, tr1) =>
          match v0 with
          | .err er => (.ret (.err er), env1, .visitN "NodeDynamicDispatch" ln col :: tr1)
          | _ =>
              match args.foldl (argStep (fun x e2 => tcVisitF reg fuel x e2))
                  (.inr (.inr []), env1, []) with
              | (.inl msg, env2, tr2) =>
                  (.exn msg, env2, .visitN "NodeDynamicDispatch" ln col :: (tr1 ++ tr2))
              | (.inr (.inl er), env2, tr2) =>
                  (.ret (.err er), env2, .visitN "NodeDynamicDispatch" ln col :: (tr1 ++ tr2))
              | (.inr (.inr ts), env2, tr2) =>
                  (.ret (checkDynamicDispatch reg (rvalToOpt v0) m ts (ln, col)), env2,
                   .visitN "NodeDynamicDispatch" ln col ::
                     (tr1 ++ (tr2 ++ [.callCheckDynamicDispatch (rvalToOpt v0) m ts])))
  | _ + 1, .selfRef ln col, env =>
      match lookupKey env "wrapperType" with
      | none => (.exn "KeyError: wrapperType", env, [.visitN "NodeSelf" ln col])
      | some vOpt =>
          (.ret (match vOpt with
                 | some t => .ty t
                 | none => .noneV), env, [.visitN "NodeSelf" ln col])

/-- Loop body of `TypeCollectorVisitor.visit_NodeProgram`: record the class
position in `line_and_col`, dispatch the visit (which for a class node is
`createType`), and append the result when it is truthy.  The state carries
an exception flag (a raised exception aborts the loop): a binary-operation
element would hit the missing `visit_NodeBinaryOperation` attribute and any
other non-class element the `not_implemented` fallback.  A nested
`NodeProgram` element is not modelled (the claims only concern programs
whose `class_list` holds class declarations) and is mapped to the
`not_implemented` exception as well. -/
def tcollStep (st : (Option String × List error × PosMap) × Registry) (nodeClass : Node) :
    (Option String × List error × PosMap) × Registry :=
  match st with
  | ((some msg, es, lc), r) => ((some msg, es, lc), r)
  | ((none, es, lc), r) =>
      let lc1 := dictUpdate lc (idNameOf nodeClass) (lineOf nodeClass, columnOf nodeClass)
      if isBinOpNode nodeClass then
        ((some "AttributeError: TypeCollectorVisitor object has no attribute visit_NodeBinaryOperation",
          es, lc1), r)
      else
        match nodeClass with
        | .cls _ _ _ _ _ _ =>
            match createType r nodeClass with
            | (some e, r1) => ((none, es ++ [e], lc1), r1)
            | (none, r1) => ((none, es, lc1), r1)
        | _ => ((some ("Not implemented visit_" ++ clsname nodeClass ++ " method"), es, lc1), r)

/-- `TypeCollectorVisitor.visit_NodeProgram` (pass 1): walk the class list,
accumulating diagnostics and the name-to-position table, threading the
registry through `createType`. -/
def tcollVisitProgram (reg : Registry) (class_list : List Node) :
    (Option String × List error × PosMap) × Registry :=
  class_list.foldl tcollStep ((none, [], []), reg)

/-- Return value of `TypeCollectorVisitor.visit`. -/
inductive TCollOut where
  | retProg (errors : List error) (line_and_col : PosMap) (reg : Registry)
  | retClass (res : Option error) (reg : Registry)
  | exn (msg : String)
deriving DecidableEq, Repr

/-- `NodeVisitor.visit` specialised to `TypeCollectorVisitor`: binary
operation subclasses are routed to the (missing) `visit_NodeBinaryOperation`
attribute, `NodeProgram` and `NodeClass` have handlers, and every other node
class falls through to `NodeVisitor.not_implemented`, which raises. -/
def tcollVisit (reg : Registry) (n : Node) : TCollOut :=
  if isBinOpNode n then
    .exn "AttributeError: TypeCollectorVisitor object has no attribute visit_NodeBinaryOperation"
  else
    match n with
    | .program cs _ _ =>
        match tcollVisitProgram reg cs with
        | ((some msg, _, _), _) => .exn msg
        | ((none, es, lc), r) => .retProg es lc r
    | .cls _ _ _ _ _ _ =>
        match createType reg n with
        | (res, r) => .retClass res r
    | _ => .exn ("Not implemented visit_" ++ clsname n ++ " method")

/-- Whether `TypeCollectorVisitor` has a `visit_<clsname>` method for this
node class (it defines only `visit_NodeProgram` and `visit_NodeClass`). -/
def tcollHandles : Node → Bool
  | .program .. => true
  | .cls .. => true
  | _ => false

/-- One recorded call to `relateInheritance`: the child type, the parent
name passed, and the position passed. -/
abbrev RelCall := String × Option String × (Nat × Nat)

/-- Loop body of `TypeInheritanceVisitor.visit_NodeProgram`: skip the root,
otherwise call `relateInheritance` (through `visitForInherit`) with the
parent stored for the type and the recorded position, defaulting to
`(0, 0)`, and append the result when it is a diagnostic. -/
def tinhStep (line_and_col_dict : PosMap) (st : (List error × List RelCall) × Registry)
    (t : String) : (List error × List RelCall) × Registry :=
  match st with
  | ((errors, calls), r) =>
      if t = "Object" then ((errors, calls), r)
      else
        let pos := (lookupKey line_and_col_dict t).getD (0, 0)
        let parentName := (lookupKey r t).bind (fun info => info.parent)
        match relateInheritance r t parentName pos with
        | .inl e => ((errors ++ [e], calls ++ [(t, parentName, pos)]), r)
        | .inr r2 => ((errors, calls ++ [(t, parentName, pos)]), r2)

/-- `TypeInheritanceVisitor.visit_NodeProgram` (pass 2): for every name in
`programContext.types` other than `Object`, call `relateInheritance` with
the stored parent and the recorded position (defaulting to `(0, 0)`),
collecting diagnostics and threading the registry.  Besides the Python
return value the embedding records the list of `relateInheritance` calls
made, so that claims about the calls are statements about that list. -/
def tinhVisitProgram (reg : Registry) (line_and_col_dict : PosMap) :
    (List error × List RelCall) × Registry :=
  (reg.map Prod.fst).foldl (tinhStep line_and_col_dict) (([], []), reg)

/-- Whether a node is a class declaration. -/
def isClsNode : Node → Bool
  | .cls .. => true
  | _ => false

/-! Claim-side definitions.  The following functions restate, in the words
of the claims being checked, what a pass or a loop is claimed to compute;
the claim theorems below relate them to the embedded visitors. -/

/-- Claim side (C6): check each member independently in order with the
running environment, contributing at most one diagnostic per member;
`none` when some member visit raises. -/
def runMembersG (visit : Node → Env → VisitRes) :
    List Node → Env → Option (List error × Env × List TraceEv)
  | [], env => some ([], env, [])
  | m :: rest, env =>
      match visit m env with
      | (.exn _, _, _) => none
      | (.ret v, env1, tr1) =>
          (runMembersG visit rest env1).map
            (fun out => (errListOf v ++ out.1, out.2.1, tr1 ++ out.2.2))

/-- Claim side (C4): check the arguments in declaration order; the first
diagnostic wins and the later arguments are not evaluated (`inl`), otherwise
the list of argument results is collected in order (`inr`); `none` when some
argument visit raises. -/
def runArgsG (visit : Node → Env → VisitRes) :
    List Node → Env →
    Option (Sum (error × Env × List TraceEv) (List (Option String) × Env × List TraceEv))
  | [], env => some (.inr ([], env, []))
  | a :: rest, env =>
      match visit a env with
      | (.exn _, _, _) => none
      | (.ret v, env1, tr1) =>
          match v with
          | .err e => some (.inl (e, env1, tr1))
          | _ =>
              (runArgsG visit rest env1).map
                (fun out =>
                  match out with
                  | .inl (e, env2, tr2) => .inl (e, env2, tr1 ++ tr2)
                  | .inr (ts, env2, tr2) => .inr (rvalToOpt v :: ts, env2, tr1 ++ tr2))

/-- Claim side (C7): one registration attempt per declared class in order,
threading the registry, collecting the diagnostic of every failing
attempt without stopping. -/
def pass1ErrorsClaim (reg : Registry) : List Node → List error
  | [] => []
  | c :: rest =>
      match createType reg c with
      | (some e, r1) => e :: pass1ErrorsClaim r1 rest
      | (none, r1) => pass1ErrorsClaim r1 rest

/-- Claim side (C8): one `relateInheritance` call per listed type except the
root, in order, passing the parent stored in the registry and the position
recorded by pass 1 when there is one, `(0, 0)` otherwise. -/
def pass2CallsClaim (reg : Registry) (posMap : PosMap) : List String → List RelCall
  | [] => []
  | t :: rest =>
      if t = "Object" then pass2CallsClaim reg posMap rest
      else
        (t, (lookupKey reg t).bind (fun info => info.parent),
         (lookupKey posMap t).getD (0, 0)) ::
          pass2CallsClaim reg posMap rest

/-- Claim side (C8): at most one diagnostic per offending class, collected
over the listed types except the root, in order, continuing after failures. -/
def pass2ErrorsClaim (reg : Registry) (posMap : PosMap) : List String → List error
  | [] => []
  | t :: rest =>
      if t = "Object" then pass2ErrorsClaim reg posMap rest
      else
        match relateInheritance reg t ((lookupKey reg t).bind (fun info => info.parent))
            ((lookupKey posMap t).getD (0, 0)) with
        | .inl e => e :: pass2ErrorsClaim reg posMap rest
        | .inr _ => pass2ErrorsClaim reg posMap rest

/-! Concrete inputs used by the counterexamples and evaluations below. -/

/-- An environment as built for a class `Main` without attributes. -/
def envMain : Env := [("wrapperType", some "Main")]

/-- The addition `x + z` where neither `x` nor `z` is bound. -/
def c1Node : Node := .binOp .add (.objectRef "x" 1 1) (.objectRef "z" 1 5) 1 3

/-- The let chain `let a : Int <- 1, b : Int <- a + 1 in b`. -/
def c2Expr : Node :=
  .letComplex
    [ .letN "a" "Int" (.intL 1 1 14) 1 5,
      .letN "b" "Int" (.binOp .add (.objectRef "a" 1 27) (.intL 1 1 31) 1 29) 1 17 ]
    (.objectRef "b" 1 36) 1 1

/-- The dispatch `(1 < 2).f()` whose receiver is an unhandled binary node. -/
def c4Node : Node :=
  .dynamicDispatch (.binOp .lt (.intL 1 1 1) (.intL 2 1 5) 1 3) "f" [] 1 1

/-- The body `1 < 2` of the method below: an unhandled binary node. -/
def c5Body : Node := .binOp .lt (.intL 1 2 3) (.intL 2 2 7) 2 5

/-- A method `m() : Int` whose body is the unhandled binary node above. -/
def c5Method : Node := .classMethod "m" [] "Int" c5Body 1 1

/-- A class declaration `class A inherits Object` at line 3. -/
def clsA : Node := .cls "A" "Object" [] [] 3 1

/-! Helper lemmas relating the loop bodies of the visitors to the claim-side
runners. -/

/-- A member loop on which no visit raises computes exactly the claim-side
member run, appended to whatever the loop had accumulated. -/
theorem runMembersG_foldl (visit : Node → Env → VisitRes) :
    ∀ (ms : List Node) (env : Env) (es : List error) (envF : Env) (tr : List TraceEv)
      (es0 : List error) (tr0 : List TraceEv),
      runMembersG visit ms env = some (es, envF, tr) →
      ms.foldl (memberStep visit) (none, es0, env, tr0) = (none, es0 ++ es, envF, tr0 ++ tr) := by
  intro ms
  induction ms with
  | nil =>
      intro env es envF tr es0 tr0 h
      simp only [runMembersG, Option.some_inj, Prod.mk.injEq] at h
      obtain ⟨h1, h2, h3⟩ := h
      subst h1; subst h2; subst h3
      simp
  | cons m rest ih =>
      intro env es envF tr es0 tr0 h
      simp only [runMembersG] at h
      rcases hv : visit m env with ⟨out, env1, tr1⟩
      cases out with
      | exn msg => simp [hv] at h
      | ret v =>
          simp only [hv] at h
          rcases hr : runMembersG visit rest env1 with _ | ⟨⟨es', envF', tr'⟩⟩
          · rw [hr] at h; simp at h
          · rw [hr] at h
            simp only [Option.map, Option.bind, Option.some_inj, Prod.mk.injEq] at h
            obtain ⟨h1, h2, h3⟩ := h
            subst h1; subst h2; subst h3
            simp only [List.foldl_cons, memberStep, hv]
            rw [ih env1 es' envF' tr' (es0 ++ errListOf v) (tr0 ++ tr1) hr]
            simp [List.append_assoc]

/-- The claim-side member run contributes at most one diagnostic per member. -/
theorem runMembersG_length (visit : Node → Env → VisitRes) :
    ∀ (ms : List Node) (env : Env) (es : List error) (envF : Env) (tr : List TraceEv),
      runMembersG visit ms env = some (es, envF, tr) → es.length ≤ ms.length := by
  intro ms
  induction ms with
  | nil =>
      intro env es envF tr h
      simp only [runMembersG, Option.some_inj, Prod.mk.injEq] at h
      obtain ⟨h1, h2, h3⟩ := h
      subst h1
      simp
  | cons m rest ih =>
      intro env es envF tr h
      simp only [runMembersG] at h
      rcases hv : visit m env with ⟨out, env1, tr1⟩
      cases out with
      | exn msg => simp [hv] at h
      | ret v =>
          simp only [hv] at h
          rcases hr : runMembersG visit rest env1 with _ | ⟨⟨es', envF', tr'⟩⟩
          · rw [hr] at h; simp at h
          · rw [hr] at h
            simp only [Option.map, Option.bind, Option.some_inj, Prod.mk.injEq] at h
            obtain ⟨h1, h2, h3⟩ := h
            subst h1
            have h4 : (errListOf v).length ≤ 1 := by cases v <;> simp [errListOf]
            have h5 := ih env1 es' envF' tr' hr
            simp only [List.length_append, List.length_cons]
            omega

/-- Once the argument loop has hit a diagnostic, the remaining arguments are
skipped. -/
theorem argStep_foldl_stuck (visit : Node → Env → VisitRes) :
    ∀ (args : List Node) (er : error) (e : Env) (tr : List TraceEv),
      args.foldl (argStep visit) (.inr (.inl er), e, tr) = (.inr (.inl er), e, tr) := by
  intro args
  induction args with
  | nil => intro er e tr; simp
  | cons a rest ih => intro er e tr; simp only [List.foldl_cons, argStep]; exact ih er e tr

/-- An argument loop on which no visit raises computes exactly the
claim-side argument run. -/
theorem runArgsG_foldl (visit : Node → Env → VisitRes) :
    ∀ (args : List Node) (env : Env)
      (r : Sum (error × Env × List TraceEv) (List (Option String) × Env × List TraceEv)),
      runArgsG visit args env = some r →
      ∀ (ts0 : List (Option String)) (tr0 : List TraceEv),
        args.foldl (argStep visit) (.inr (.inr ts0), env, tr0) =
          (match r with
           | .inl (er, env2, tr2) => (.inr (.inl er), env2, tr0 ++ tr2)
           | .inr (ts, env2, tr2) => (.inr (.inr (ts0 ++ ts)), env2, tr0 ++ tr2)) := by
  intro args
  induction args with
  | nil =>
      intro env r h ts0 tr0
      simp only [runArgsG, Option.some_inj] at h
      subst h
      simp
  | cons a rest ih =>
      intro env r h ts0 tr0
      simp only [runArgsG] at h
      rcases hv : visit a env with ⟨out, env1, tr1⟩
      cases out with
      | exn msg => simp [hv] at h
      | ret v =>
          simp only [hv] at h
          cases v with
          | err er =>
              simp only [Option.some_inj] at h
              subst h
              simp only [List.foldl_cons, argStep, hv]
              exact argStep_foldl_stuck visit rest er env1 (tr0 ++ tr1)
          | ty t =>
              rcases hr : runArgsG visit rest env1 with _ | r'
              · rw [hr] at h; simp at h
              · rw [hr] at h
                simp only [Option.map, Option.bind, Option.some_inj] at h
                subst h
                simp only [List.foldl_cons, argStep, hv]
                rw [ih env1 r' hr (ts0 ++ [rvalToOpt (.ty t)]) (tr0 ++ tr1)]
                rcases r' with ⟨er, env2, tr2⟩ | ⟨ts, env2, tr2⟩ <;>
                  simp [List.append_assoc]
          | noneV =>
              rcases hr : runArgsG visit rest env1 with _ | r'
              · rw [hr] at h; simp at h
              · rw [hr] at h
                simp only [Option.map, Option.bind, Option.some_inj] at h
                subst h
                simp only [List.foldl_cons, argStep, hv]
                rw [ih env1 r' hr (ts0 ++ [rvalToOpt .noneV]) (tr0 ++ tr1)]
                rcases r' with ⟨er, env2, tr2⟩ | ⟨ts, env2, tr2⟩ <;>
                  simp [List.append_assoc]
          | errs es2 =>
              rcases hr : runArgsG visit rest env1 with _ | r'
              · rw [hr] at h; simp at h
              · rw [hr] at h
                simp only [Option.map, Option.bind, Option.some_inj] at h
                subst h
                simp only [List.foldl_cons, argStep, hv]
                rw [ih env1 r' hr (ts0 ++ [rvalToOpt (.errs es2)]) (tr0 ++ tr1)]
                rcases r' with ⟨er, env2, tr2⟩ | ⟨ts, env2, tr2⟩ <;>
                  simp [List.append_assoc]

/-- After `d[k] = v` the key `k` maps to `v`. -/
theorem lookupKey_dictUpdate_self {α : Type} :
    ∀ (m : List (String × α)) (k : String) (v : α),
      lookupKey (dictUpdate m k v) k = some v := by
  intro m
  induction m with
  | nil => intro k v; simp [dictUpdate, lookupKey]
  | cons p rest ih =>
      intro k v
      rcases p with ⟨k1, v1⟩
      by_cases h : k1 = k <;> simp [dictUpdate, h, lookupKey, ih]

/-- A dictionary update never removes a key. -/
theorem lookupKey_dictUpdate_isSome {α : Type} :
    ∀ (m : List (String × α)) (k k2 : String) (v : α),
      (lookupKey m k).isSome → (lookupKey (dictUpdate m k2 v) k).isSome := by
  intro m
  induction m with
  | nil => intro k k2 v h; simp [lookupKey] at h
  | cons p rest ih =>
      intro k k2 v h
      rcases p with ⟨k1, v1⟩
      by_cases h1 : k1 = k2
      · subst h1
        simp only [dictUpdate, if_pos rfl, lookupKey]
        simp only [lookupKey] at h
        by_cases h2 : k1 = k <;> simp [h2] at h ⊢
        exact h
      · simp only [dictUpdate, if_neg h1, lookupKey]
        simp only [lookupKey] at h
        by_cases h2 : k1 = k
        · simp [h2]
        · simp only [if_neg h2] at h ⊢
          exact ih k k2 v h

/-- Pass-1 loop characterization: on a list of class declarations the loop
never raises, its diagnostics are the claim-side ones appended, and every
class name of the list ends up in the position table (keys already present
are preserved). -/
theorem tcoll_fold :
    ∀ (class_list : List Node) (reg : Registry) (es0 : List error) (lc0 : PosMap),
      (∀ n ∈ class_list, isClsNode n = true) →
      ∃ (lc1 : PosMap) (reg1 : Registry),
        class_list.foldl tcollStep ((none, es0, lc0), reg) =
          ((none, es0 ++ pass1ErrorsClaim reg class_list, lc1), reg1) ∧
        (∀ k : String, (lookupKey lc0 k).isSome → (lookupKey lc1 k).isSome) ∧
        (∀ n ∈ class_list, (lookupKey lc1 (idNameOf n)).isSome) := by
  intro class_list
  induction class_list with
  | nil =>
      intro reg es0 lc0 _
      exact ⟨lc0, reg, by simp [pass1ErrorsClaim], fun k h => h, by simp⟩
  | cons cnode rest ih =>
      intro reg es0 lc0 hcls
      have hc : isClsNode cnode = true := hcls cnode (by simp)
      have hrest : ∀ n ∈ rest, isClsNode n = true := fun n hn => hcls n (by simp [hn])
      rcases hcnode : cnode with ⟨⟩ | ⟨idN, par, attrs, meths, ln, col⟩ | _ | _ | _ | _ | _ | _ | _ | _ | _ | _ | _ | _ | _ | _ <;>
        simp [hcnode, isClsNode] at hc
      -- only the class constructor survives
      rcases hct : createType reg (.cls idN par attrs meths ln col) with ⟨res, reg2⟩
      cases res with
      | some e =>
          obtain ⟨lc1, reg1, hfold, hpres, hmem⟩ :=
            ih reg2 (es0 ++ [e])
              (dictUpdate lc0 idN (ln, col)) hrest
          refine ⟨lc1, reg1, ?_, ?_, ?_⟩
          · simp only [List.foldl_cons, tcollStep, isBinOpNode, idNameOf, lineOf, columnOf, hct,
              pass1ErrorsClaim]
            simp [hfold, List.append_assoc]
          · intro k hk
            exact hpres k (lookupKey_dictUpdate_isSome lc0 k idN (ln, col) hk)
          · intro n hn
            rcases List.mem_cons.mp hn with h | h
            · subst h
              simp only [idNameOf]
              exact hpres idN (by rw [lookupKey_dictUpdate_self]; rfl)
            · exact hmem n h
      | none =>
          obtain ⟨lc1, reg1, hfold, hpres, hmem⟩ :=
            ih reg2 es0 (dictUpdate lc0 idN (ln, col)) hrest
          refine ⟨lc1, reg1, ?_, ?_, ?_⟩
          · simp only [List.foldl_cons, tcollStep, isBinOpNode, idNameOf, lineOf, columnOf, hct,
              pass1ErrorsClaim]
            simp [hfold]
          · intro k hk
            exact hpres k (lookupKey_dictUpdate_isSome lc0 k idN (ln, col) hk)
          · intro n hn
            rcases List.mem_cons.mp hn with h | h
            · subst h
              simp only [idNameOf]
              exact hpres idN (by rw [lookupKey_dictUpdate_self]; rfl)
            · exact hmem n h

/-- Rewriting the parent of a key that does not occur leaves the registry
unchanged. -/
theorem setParent_map_id (child : String) (p : String) :
    ∀ (m : Registry), (∀ q ∈ m, q.1 ≠ child) →
      m.map (fun q => if q.1 = child then (q.1, { q.2 with parent := some p }) else q) = m := by
  intro m
  induction m with
  | nil => intro _; simp
  | cons q rest ih =>
      intro h
      have h1 : q.1 ≠ child := h q (by simp)
      have h2 : ∀ q2 ∈ rest, q2.1 ≠ child := fun q2 hq2 => h q2 (by simp [hq2])
      simp [h1, ih h2]

/-- A key of the registry is found by `lookupKey`. -/
theorem lookupKey_isSome_of_mem_keys :
    ∀ (m : Registry) (t : String), t ∈ m.map Prod.fst → (lookupKey m t).isSome := by
  intro m
  induction m with
  | nil => intro t h; simp at h
  | cons q rest ih =>
      intro t h
      simp only [List.map_cons, List.mem_cons] at h
      rcases h with h | h
      · simp [lookupKey, h]
      · by_cases h2 : q.1 = t
        · simp [lookupKey, h2]
        · simp only [lookupKey, if_neg h2]
          exact ih t h

/-- Rewriting the parent of the unique entry of a key to the parent it
already stores is the identity on the registry. -/
theorem setParent_lookup_id (child p : String) :
    ∀ (m : Registry), (m.map Prod.fst).Nodup →
      ∀ info : ClassInfo, lookupKey m child = some info → info.parent = some p →
      m.map (fun q => if q.1 = child then (q.1, { q.2 with parent := some p }) else q) = m := by
  intro m
  induction m with
  | nil => intro _ info hl _; simp [lookupKey] at hl
  | cons q rest ih =>
      intro hnd info hl hp
      simp only [List.map_cons, List.nodup_cons] at hnd
      obtain ⟨hq, hrest⟩ := hnd
      by_cases h4 : q.1 = child
      · simp only [lookupKey, if_pos h4, Option.some_inj] at hl
        have h5 : ∀ q2 ∈ rest, q2.1 ≠ child := by
          intro q2 hq2 heq
          apply hq
          rw [h4, ← heq]
          exact List.mem_map_of_mem Prod.fst hq2
        simp only [List.map_cons, if_pos h4]
        rw [setParent_map_id child p rest h5]
        rcases q with ⟨k, ci⟩
        simp only at h4 hl
        subst h4
        subst hl
        have h6 : ClassInfo.mk (some p) ci.attributes ci.methods = ci := by
          rcases ci with ⟨cip, cia, cim⟩
          simp only at hp
          simp [hp]
        simp [h6]
      · simp only [lookupKey, if_neg h4] at hl
        simp only [List.map_cons, if_neg h4]
        rw [ih hrest info hl hp]

/-- On a registry with distinct keys, a successful `relateInheritance` call
whose parent argument is the parent already stored for the child returns the
registry unchanged. -/
theorem relateInheritance_stored_parent_inr :
    ∀ (reg : Registry) (child : String) (info : ClassInfo) (pos : Nat × Nat) (r2 : Registry),
      (reg.map Prod.fst).Nodup →
      lookupKey reg child = some info →
      relateInheritance reg child info.parent pos = .inr r2 → r2 = reg := by
  intro reg child info pos r2 hnd hl h
  rcases hp : info.parent with _ | p
  · rw [hp] at h; simp [relateInheritance] at h
  · rw [hp] at h
    simp only [relateInheritance] at h
    split at h
    · exact Sum.noConfusion h
    · split at h
      · exact Sum.noConfusion h
      · split at h
        · exact Sum.noConfusion h
        · simp only [Sum.inr.injEq] at h
          subst h
          exact setParent_lookup_id child p reg hnd info hl hp


/-- Pass-2 loop characterization: on a registry with distinct keys the loop
performs one `relateInheritance` call per listed type except the root and
collects exactly the claim-side diagnostics, leaving the registry unchanged. -/
theorem tinh_fold (reg : Registry) (posMap : PosMap)
    (hnd : (reg.map Prod.fst).Nodup) :
    ∀ (l : List String), (∀ t ∈ l, (lookupKey reg t).isSome) →
      ∀ (es0 : List error) (calls0 : List RelCall),
        l.foldl (tinhStep posMap) ((es0, calls0), reg) =
          ((es0 ++ pass2ErrorsClaim reg posMap l,
            calls0 ++ pass2CallsClaim reg posMap l), reg) := by
  intro l
  induction l with
  | nil => intro _ es0 calls0; simp [pass2ErrorsClaim, pass2CallsClaim]
  | cons t rest ih =>
      intro hmem es0 calls0
      have ht : (lookupKey reg t).isSome := hmem t (by simp)
      have hrest : ∀ t2 ∈ rest, (lookupKey reg t2).isSome :=
        fun t2 h2 => hmem t2 (by simp [h2])
      by_cases hobj : t = "Object"
      · simp only [List.foldl_cons, tinhStep, if_pos hobj]
        rw [ih hrest es0 calls0]
        simp [pass2ErrorsClaim, pass2CallsClaim, hobj]
      · obtain ⟨info, hinfo⟩ := Option.isSome_iff_exists.mp ht
        simp only [List.foldl_cons, tinhStep, if_neg hobj, hinfo, Option.bind]
        rcases hrel : relateInheritance reg t info.parent
            ((lookupKey posMap t).getD (0, 0)) with e | r2
        · have hstep := ih hrest (es0 ++ [e])
            (calls0 ++ [(t, info.parent, (lookupKey posMap t).getD (0, 0))])
          simp only [hstep]
          simp only [pass2ErrorsClaim, pass2CallsClaim, if_neg hobj, hinfo, Option.bind, hrel]
          simp [List.append_assoc]
        · have heq := relateInheritance_stored_parent_inr reg t info
            ((lookupKey posMap t).getD (0, 0)) r2 hnd hinfo hrel
          subst heq
          have hstep := ih hrest es0
            (calls0 ++ [(t, info.parent, (lookupKey posMap t).getD (0, 0))])
          simp only [hstep]
          simp only [pass2ErrorsClaim, pass2CallsClaim, if_neg hobj, hinfo, Option.bind, hrel]
          simp [List.append_assoc]

/-! Claim theorems. -/

/-- Claim C1 (counterexample): in `x + z` with `x` unbound, type-checking the
first operand yields a diagnostic (and that diagnostic is the result of the
whole expression), yet the second operand is evaluated all the same: its
visit event is in the trace, refuting that the second operand is not
evaluated. -/
theorem c1_counterexample :
    (tcVisitF initialContext 20 c1Node envMain).1 =
      .ret (.err ⟨"UnknownVariable", 1, 1⟩) ∧
    TraceEv.visitN "NodeObject" 1 5 ∈ (tcVisitF initialContext 20 c1Node envMain).2.2 := by
  decide

/-- Claim C1 (amended): for every binary-operation expression node, when the
first operand yields a diagnostic and the second operand returns normally,
the first diagnostic is the result of the enclosing expression and
propagates to the caller, but the second operand is evaluated nonetheless:
the trace contains both operand visits, in order. -/
theorem c1_amended (reg : Registry) (fuel : Nat) (k : BinOpKind) (f s : Node)
    (ln col : Nat) (env env1 env2 : Env) (e : error) (v2 : RVal)
    (tr1 tr2 : List TraceEv)
    (h1 : tcVisitF reg fuel f env = (.ret (.err e), env1, tr1))
    (h2 : tcVisitF reg fuel s env1 = (.ret v2, env2, tr2)) :
    tcVisitF reg (fuel + 1) (.binOp k f s ln col) env =
      (.ret (.err e), env2, .visitN (binOpClsname k) ln col :: (tr1 ++ tr2)) := by
  simp only [tcVisitF, h1, h2]

/-- Witness for the amended claim C1 at a concrete input. -/
theorem c1_amended_witness :
    tcVisitF initialContext 3 (.binOp .add (.objectRef "x" 1 1) (.intL 2 1 5) 1 3) envMain =
      (.ret (.err ⟨"UnknownVariable", 1, 1⟩), envMain,
       .visitN (binOpClsname .add) 1 3 ::
         ([TraceEv.visitN "NodeObject" 1 1] ++ [TraceEv.visitN "NodeInteger" 1 5])) :=
  c1_amended initialContext 2 .add (.objectRef "x" 1 1) (.intL 2 1 5) 1 3 envMain envMain
    envMain ⟨"UnknownVariable", 1, 1⟩ (.ty "Int") [.visitN "NodeObject" 1 1]
    [.visitN "NodeInteger" 1 5] (by decide) (by decide)

/-- Claim C2 (evaluation at the failing input): on the chain
`let a : Int <- 1, b : Int <- a + 1 in b` the checker returns an
UnknownVariable diagnostic for the `a` in the second initializer instead of
the integer type, because `visit_NodeLetComplex` re-copies the outer
environment at every nested binding, losing the earlier sibling. -/
theorem c2_let_chain_evaluation :
    (tcVisitF initialContext 20 c2Expr envMain).1 =
      .ret (.err ⟨"UnknownVariable", 1, 27⟩) := by
  decide

/-- Claim C3: a binary-operation node of a kind other than addition,
subtraction, multiplication, division and equality falls through the
dispatch: when both operands return without a diagnostic, the visit returns
the Python `None` — neither a type name nor a diagnostic. -/
theorem c3_binop_fallthrough (reg : Registry) (fuel : Nat) (k : BinOpKind) (f s : Node)
    (ln col : Nat) (env env1 env2 : Env) (v1 v2 : RVal) (tr1 tr2 : List TraceEv)
    (hk1 : k ≠ .add) (hk2 : k ≠ .sub) (hk3 : k ≠ .mult) (hk4 : k ≠ .div) (hk5 : k ≠ .eq)
    (h1 : tcVisitF reg fuel f env = (.ret v1, env1, tr1)) (he1 : isErrRv v1 = false)
    (h2 : tcVisitF reg fuel s env1 = (.ret v2, env2, tr2)) (he2 : isErrRv v2 = false) :
    tcVisitF reg (fuel + 1) (.binOp k f s ln col) env =
      (.ret .noneV, env2, .visitN (binOpClsname k) ln col :: (tr1 ++ tr2)) := by
  simp only [tcVisitF, h1, h2]
  cases v1 with
  | err e1 => simp [isErrRv] at he1
  | _ =>
      cases v2 with
      | err e2 => simp [isErrRv] at he2
      | _ => simp [hk1, hk2, hk3, hk4, hk5]

/-- Witness for claim C3 at a concrete input (a less-than node). -/
theorem c3_witness :
    tcVisitF initialContext 3 (.binOp .lt (.intL 1 1 1) (.intL 2 1 5) 1 3) envMain =
      (.ret .noneV, envMain,
       .visitN (binOpClsname .lt) 1 3 ::
         ([TraceEv.visitN "NodeInteger" 1 1] ++ [TraceEv.visitN "NodeInteger" 1 5])) :=
  c3_binop_fallthrough initialContext 2 .lt (.intL 1 1 1) (.intL 2 1 5) 1 3 envMain envMain
    envMain (.ty "Int") (.ty "Int") [.visitN "NodeInteger" 1 1] [.visitN "NodeInteger" 1 5]
    (by decide) (by decide) (by decide) (by decide) (by decide)
    (by decide) (by decide) (by decide) (by decide)

/-- Argument-loop bridge, first-failure case. -/
theorem runArgsG_foldl_inl (visit : Node → Env → VisitRes) (args : List Node) (env : Env)
    (er : error) (env2 : Env) (tr2 : List TraceEv)
    (h : runArgsG visit args env = some (.inl (er, env2, tr2))) :
    args.foldl (argStep visit) (.inr (.inr []), env, []) = (.inr (.inl er), env2, tr2) := by
  have h2 := runArgsG_foldl visit args env _ h [] []
  simpa using h2

/-- Argument-loop bridge, all-arguments case. -/
theorem runArgsG_foldl_inr (visit : Node → Env → VisitRes) (args : List Node) (env : Env)
    (ts : List (Option String)) (env2 : Env) (tr2 : List TraceEv)
    (h : runArgsG visit args env = some (.inr (ts, env2, tr2))) :
    args.foldl (argStep visit) (.inr (.inr []), env, []) = (.inr (.inr ts), env2, tr2) := by
  have h2 := runArgsG_foldl visit args env _ h [] []
  simpa using h2

/-- Claim C4 (counterexample): in `(1 < 2).f()` the receiver is an unhandled
binary node whose visit yields no type at all, yet the dispatch validity
check is invoked (with an empty receiver result), refuting that the check is
invoked only when the receiver and all arguments yield types. -/
theorem c4_counterexample :
    TraceEv.callCheckDynamicDispatch none "f" [] ∈
      (tcVisitF initialContext 20 c4Node envMain).2.2 ∧
    (tcVisitF initialContext 20 (.binOp .lt (.intL 1 1 1) (.intL 2 1 5) 1 3) envMain).1 =
      .ret .noneV := by
  decide

/-- Claim C4 (amended): for every dynamic-dispatch node the receiver is
type-checked first; a receiver diagnostic is returned with no argument
evaluated; otherwise the arguments are checked in declaration order, the
first argument diagnostic is returned with no later argument evaluated, and
only when the receiver and all arguments yield non-diagnostic results is
the dispatch validity check invoked with the receiver result, the method
name and the argument results in order, its value being the result of the
visit. -/
theorem c4_amended (reg : Registry) (fuel : Nat) (e : Node) (m : String) (args : List Node)
    (ln col : Nat) (env : Env) :
    (∀ (er : error) (env1 : Env) (tr1 : List TraceEv),
        tcVisitF reg fuel e env = (.ret (.err er), env1, tr1) →
        tcVisitF reg (fuel + 1) (.dynamicDispatch e m args ln col) env =
          (.ret (.err er), env1, .visitN "NodeDynamicDispatch" ln col :: tr1)) ∧
    (∀ (v0 : RVal) (env1 : Env) (tr1 : List TraceEv) (er : error) (env2 : Env)
        (tr2 : List TraceEv),
        tcVisitF reg fuel e env = (.ret v0, env1, tr1) → isErrRv v0 = false →
        runArgsG (fun x e2 => tcVisitF reg fuel x e2) args env1 =
          some (.inl (er, env2, tr2)) →
        tcVisitF reg (fuel + 1) (.dynamicDispatch e m args ln col) env =
          (.ret (.err er), env2,
           .visitN "NodeDynamicDispatch" ln col :: (tr1 ++ tr2))) ∧
    (∀ (v0 : RVal) (env1 : Env) (tr1 : List TraceEv) (ts : List (Option String))
        (env2 : Env) (tr2 : List TraceEv),
        tcVisitF reg fuel e env = (.ret v0, env1, tr1) → isErrRv v0 = false →
        runArgsG (fun x e2 => tcVisitF reg fuel x e2) args env1 =
          some (.inr (ts, env2, tr2)) →
        tcVisitF reg (fuel + 1) (.dynamicDispatch e m args ln col) env =
          (.ret (checkDynamicDispatch reg (rvalToOpt v0) m ts (ln, col)), env2,
           .visitN "NodeDynamicDispatch" ln col ::
             (tr1 ++ (tr2 ++ [.callCheckDynamicDispatch (rvalToOpt v0) m ts])))) := by
  refine ⟨?_, ?_, ?_⟩
  · intro er env1 tr1 h
    simp only [tcVisitF, h]
  · intro v0 env1 tr1 er env2 tr2 h hv hargs
    have hfold := runArgsG_foldl_inl _ args env1 er env2 tr2 hargs
    simp only [tcVisitF, h, hfold]
    cases v0 with
    | err e0 => simp [isErrRv] at hv
    | _ => simp
  · intro v0 env1 tr1 ts env2 tr2 h hv hargs
    have hfold := runArgsG_foldl_inr _ args env1 ts env2 tr2 hargs
    simp only [tcVisitF, h, hfold]
    cases v0 with
    | err e0 => simp [isErrRv] at hv
    | _ => simp

/-- Witness for the amended claim C4 at a concrete input. -/
theorem c4_witness :
    tcVisitF initialContext 3 (.dynamicDispatch (.intL 1 1 1) "f" [.intL 2 1 5] 1 3) envMain =
      (.ret (checkDynamicDispatch initialContext (some "Int") "f" [some "Int"] (1, 3)), envMain,
       .visitN "NodeDynamicDispatch" 1 3 ::
         ([TraceEv.visitN "NodeInteger" 1 1] ++
          ([TraceEv.visitN "NodeInteger" 1 5] ++
           [TraceEv.callCheckDynamicDispatch (some "Int") "f" [some "Int"]]))) :=
  (c4_amended initialContext 2 (.intL 1 1 1) "f" [.intL 2 1 5] 1 3 envMain).2.2
    (.ty "Int") envMain [.visitN "NodeInteger" 1 1] [some "Int"] envMain
    [.visitN "NodeInteger" 1 5] (by decide) (by decide) (by decide)

/-- Claim C5 (counterexample): for a method `m() : Int` whose body is the
unhandled binary node `1 < 2`, the environment construction succeeds, the
body yields no type at all (Python `None`), and the return-type conformance
check is nevertheless invoked (with an empty body result), refuting that
the check is performed only when the body yields a type. -/
theorem c5_counterexample :
    TraceEv.callCheckReturnType "m" none ∈
      (tcVisitF initialContext 20 c5Method envMain).2.2 ∧
    (tcVisitF initialContext 20 c5Body envMain).1 = .ret .noneV := by
  decide

/-- Claim C5 (amended): for every method declaration, pass 4 first builds
the method environment; on failure that diagnostic is returned and the body
is never evaluated (the trace holds no body events); otherwise the body is
evaluated, a body diagnostic is returned without invoking the return-type
check, and the return-type conformance check is performed exactly when the
body result is not a diagnostic (also when the body yields no result at
all). -/
theorem c5_amended (reg : Registry) (fuel : Nat) (idN : String) (formals : List Formal)
    (retT : String) (body : Node) (ln col : Nat) (env : Env) :
    (∀ er : error,
        buildEnvForMethod (.classMethod idN formals retT body ln col) env = .inl er →
        tcVisitF reg (fuel + 1) (.classMethod idN formals retT body ln col) env =
          (.ret (.err er), env, [.visitN "NodeClassMethod" ln col])) ∧
    (∀ (newEnv : Env) (er : error) (env1 : Env) (tr1 : List TraceEv),
        buildEnvForMethod (.classMethod idN formals retT body ln col) env = .inr newEnv →
        tcVisitF reg fuel body newEnv = (.ret (.err er), env1, tr1) →
        tcVisitF reg (fuel + 1) (.classMethod idN formals retT body ln col) env =
          (.ret (.err er), env, .visitN "NodeClassMethod" ln col :: tr1)) ∧
    (∀ (newEnv : Env) (v : RVal) (env1 : Env) (tr1 : List TraceEv),
        buildEnvForMethod (.classMethod idN formals retT body ln col) env = .inr newEnv →
        tcVisitF reg fuel body newEnv = (.ret v, env1, tr1) → isErrRv v = false →
        tcVisitF reg (fuel + 1) (.classMethod idN formals retT body ln col) env =
          (.ret (checkReturnType reg retT (rvalToOpt v) (ln, col)), env,
           .visitN "NodeClassMethod" ln col ::
             (tr1 ++ [.callCheckReturnType idN (rvalToOpt v)]))) := by
  refine ⟨?_, ?_, ?_⟩
  · intro er hbuild
    simp only [tcVisitF, hbuild]
  · intro newEnv er env1 tr1 hbuild hbody
    simp only [tcVisitF, hbuild, hbody]
  · intro newEnv v env1 tr1 hbuild hbody hv
    simp only [tcVisitF, hbuild, hbody]
    cases v with
    | err e0 => simp [isErrRv] at hv
    | _ => simp

/-- Witness for the amended claim C5 at a concrete input. -/
theorem c5_witness :
    tcVisitF initialContext 2 (.classMethod "m" [] "Int" (.intL 1 1 9) 1 1) envMain =
      (.ret (checkReturnType initialContext "Int" (some "Int") (1, 1)), envMain,
       .visitN "NodeClassMethod" 1 1 ::
         ([TraceEv.visitN "NodeInteger" 1 9] ++ [TraceEv.callCheckReturnType "m" (some "Int")])) :=
  (c5_amended initialContext 1 "m" [] "Int" (.intL 1 1 9) 1 1 envMain).2.2
    envMain (.ty "Int") envMain [.visitN "NodeInteger" 1 9]
    (by decide) (by decide) (by decide)

/-- Claim C6: the class-level pass evaluates every attribute and then every
method against the running class environment, appending at most one
diagnostic per member; a member diagnostic does not prevent the remaining
members from being checked (the trace is exactly the concatenation of all
member runs), and the diagnostics aggregate in declaration order, attributes
before methods. -/
theorem c6_class_aggregation (reg : Registry) (fuel : Nat) (idN par : String)
    (attrs methods : List Node) (ln col : Nat) (env : Env)
    (esA : List error) (envA : Env) (trA : List TraceEv)
    (esM : List error) (envM : Env) (trM : List TraceEv)
    (hA : runMembersG (fun m e => tcVisitF reg fuel m e) attrs env = some (esA, envA, trA))
    (hM : runMembersG (fun m e => tcVisitF reg fuel m e) methods envA = some (esM, envM, trM)) :
    tcVisitF reg (fuel + 1) (.cls idN par attrs methods ln col) env =
      (.ret (.errs (esA ++ esM)), envM, .visitN "NodeClass" ln col :: (trA ++ trM)) ∧
    (esA ++ esM).length ≤ attrs.length + methods.length := by
  constructor
  · have h1 := runMembersG_foldl _ attrs env esA envA trA [] [] hA
    simp only [List.nil_append] at h1
    have h2 := runMembersG_foldl _ methods envA esM envM trM esA trA hM
    simp only [tcVisitF, h1, h2]
  · have l1 := runMembersG_length _ attrs env esA envA trA hA
    have l2 := runMembersG_length _ methods envA esM envM trM hM
    simp only [List.length_append]
    omega

/-- Witness for claim C6 at a concrete class whose first attribute fails and
whose method is still checked. -/
theorem c6_witness :
    tcVisitF initialContext 4
        (.cls "C" "Object"
          [.attr "x" "Int" (.objectRef "q" 4 9) 4 5]
          [.classMethod "m" [] "Int" (.intL 1 5 9) 5 5] 2 1) envMain =
      (.ret (.errs ([⟨"UnknownVariable", 4, 9⟩] ++ [])), envMain,
       .visitN "NodeClass" 2 1 ::
         ([TraceEv.visitN "NodeAttr" 4 5, TraceEv.visitN "NodeObject" 4 9] ++
          [TraceEv.visitN "NodeClassMethod" 5 5, TraceEv.visitN "NodeInteger" 5 9,
           TraceEv.callCheckReturnType "m" (some "Int")])) ∧
    (([⟨"UnknownVariable", 4, 9⟩] : List error) ++ []).length ≤
      ([Node.attr "x" "Int" (.objectRef "q" 4 9) 4 5] : List Node).length +
      ([Node.classMethod "m" [] "Int" (.intL 1 5 9) 5 5] : List Node).length :=
  c6_class_aggregation initialContext 3 "C" "Object"
    [.attr "x" "Int" (.objectRef "q" 4 9) 4 5]
    [.classMethod "m" [] "Int" (.intL 1 5 9) 5 5] 2 1 envMain
    [⟨"UnknownVariable", 4, 9⟩] envMain
    [.visitN "NodeAttr" 4 5, .visitN "NodeObject" 4 9]
    [] envMain
    [.visitN "NodeClassMethod" 5 5, .visitN "NodeInteger" 5 9,
     .callCheckReturnType "m" (some "Int")]
    (by decide) (by decide)

/-- Claim C7: pass 1 visits every top-level class declaration, accumulating
exactly one diagnostic per failing registration without stopping at the
first failure, and its position table contains every declared class name,
including the ones whose registration failed. -/
theorem c7_collector (reg : Registry) (class_list : List Node)
    (hcls : ∀ n ∈ class_list, isClsNode n = true) :
    (tcollVisitProgram reg class_list).1.1 = none ∧
    (tcollVisitProgram reg class_list).1.2.1 = pass1ErrorsClaim reg class_list ∧
    ∀ n ∈ class_list,
      (lookupKey (tcollVisitProgram reg class_list).1.2.2 (idNameOf n)).isSome := by
  obtain ⟨lc1, reg1, hfold, hpres, hmem⟩ := tcoll_fold class_list reg [] [] hcls
  unfold tcollVisitProgram
  rw [hfold]
  exact ⟨rfl, by simp, hmem⟩

/-- Witness for claim C7: a program declaring `A` twice reports the
duplicate yet keeps `A` in the position table. -/
theorem c7_witness :
    (tcollVisitProgram initialContext [clsA, clsA]).1.2.1 =
      pass1ErrorsClaim initialContext [clsA, clsA] ∧
    (lookupKey (tcollVisitProgram initialContext [clsA, clsA]).1.2.2 (idNameOf clsA)).isSome :=
  ⟨(c7_collector initialContext [clsA, clsA] (by decide)).2.1,
   (c7_collector initialContext [clsA, clsA] (by decide)).2.2 clsA (by simp)⟩

/-- Claim C8 (counterexample): with the pre-registered built-in types in the
registry, pass 2 calls `relateInheritance` on `Int` passing position
`(0, 0)` although pass 1 recorded no position for `Int`, refuting that every
call passes a position recorded by pass 1. -/
theorem c8_counterexample :
    ("Int", some "Object", ((0 : Nat), (0 : Nat))) ∈
      (tinhVisitProgram ((tcollVisitProgram initialContext [clsA]).2) [("A", (3, 1))]).1.2 ∧
    lookupKey ([("A", (3, 1))] : PosMap) "Int" = none := by
  decide

/-- Claim C8 (amended): on a registry with distinct keys, pass 2 calls
`relateInheritance` exactly once for every registered type except the root,
in registry order, passing that type's stored parent name and the position
recorded by pass 1 for that type when one exists and `(0, 0)` otherwise;
diagnostics accumulate with at most one per offending class, continuing
over the remaining types after a failure, and the registry is returned
unchanged. -/
theorem c8_amended (reg : Registry) (posMap : PosMap)
    (hnd : (reg.map Prod.fst).Nodup) :
    (tinhVisitProgram reg posMap).1.2 = pass2CallsClaim reg posMap (reg.map Prod.fst) ∧
    (tinhVisitProgram reg posMap).1.1 = pass2ErrorsClaim reg posMap (reg.map Prod.fst) ∧
    (tinhVisitProgram reg posMap).2 = reg := by
  have h := tinh_fold reg posMap hnd (reg.map Prod.fst)
    (fun t ht => lookupKey_isSome_of_mem_keys reg t ht) [] []
  simp only [tinhVisitProgram, h]
  simp

/-- Witness for the amended claim C8 on the pre-registered registry. -/
theorem c8_witness :
    (tinhVisitProgram initialContext []).1.2 =
      pass2CallsClaim initialContext [] (initialContext.map Prod.fst) ∧
    (tinhVisitProgram initialContext []).1.1 =
      pass2ErrorsClaim initialContext [] (initialContext.map Prod.fst) ∧
    (tinhVisitProgram initialContext []).2 = initialContext :=
  c8_amended initialContext [] (by decide)

/-- Claim C9: visiting a node whose class has no `visit_<clsname>` handler
on the type-collector visitor and whose first base class is not the
binary-operation class raises the `not_implemented` exception instead of
returning a diagnostic or a type name. -/
theorem c9_not_implemented (reg : Registry) (n : Node)
    (h1 : isBinOpNode n = false) (h2 : tcollHandles n = false) :
    tcollVisit reg n = .exn ("Not implemented visit_" ++ clsname n ++ " method") := by
  cases n <;> simp_all [isBinOpNode, tcollHandles, tcollVisit, clsname]

/-- Witness for claim C9: an integer literal visited by the type collector. -/
theorem c9_witness :
    isBinOpNode (.intL 1 0 0) = false ∧ tcollHandles (.intL 1 0 0) = false ∧
    tcollVisit initialContext (.intL 1 0 0) =
      .exn ("Not implemented visit_" ++ clsname (.intL 1 0 0) ++ " method") :=
  ⟨by decide, by decide, c9_not_implemented initialContext (.intL 1 0 0) (by decide) (by decide)⟩

/-- Claim C10: checking a chained let returns the caller's environment
unchanged, whatever happens inside (every binding goes into a fresh copy),
whereas a bare single let whose initializer returns without a diagnostic
adds its binding to the very environment it receives. -/
theorem c10_env_frame (reg : Registry) :
    (∀ (fuel : Nat) (nestedLets : List Node) (body : Node) (ln col : Nat) (env : Env),
        (tcVisitF reg fuel (.letComplex nestedLets body ln col) env).2.1 = env) ∧
    (∀ (fuel : Nat) (idN tyN : String) (bodyE : Node) (ln col : Nat) (env env1 : Env)
        (v : RVal) (tr1 : List TraceEv),
        tcVisitF reg fuel bodyE env = (.ret v, env1, tr1) → isErrRv v = false →
        (tcVisitF reg (fuel + 1) (.letN idN tyN bodyE ln col) env).2.1 =
          dictUpdate env1 idN (some tyN)) := by
  constructor
  · intro fuel lets body ln col env
    cases fuel with
    | zero => simp [tcVisitF]
    | succ f =>
        cases lets with
        | nil => simp [tcVisitF]
        | cons l rest =>
            simp only [tcVisitF]
            rcases hfold : (l :: rest).foldl (chainStep (fun m e => tcVisitF reg f m e) env)
                (none, env, []) with ⟨flag, lastEnv, tr⟩
            rcases flag with _ | rr
            · rcases hb : tcVisitF reg f body lastEnv with ⟨out, e2, t2⟩
              simp [hfold, hb]
            · rcases rr with msg | er <;> simp [hfold]
  · intro fuel idN tyN bodyE ln col env env1 v tr1 h hv
    simp only [tcVisitF, h]
    cases v with
    | err e0 => simp [isErrRv] at hv
    | _ => simp

/-- Witness for claim C10 at concrete inputs. -/
theorem c10_witness :
    (tcVisitF initialContext 5
        (.letComplex [.letN "a" "Int" (.intL 1 1 14) 1 5] (.objectRef "a" 1 20) 1 1)
        envMain).2.1 = envMain ∧
    (tcVisitF initialContext 2 (.letN "a" "Int" (.intL 1 1 9) 1 1) envMain).2.1 =
      dictUpdate envMain "a" (some "Int") :=
  ⟨(c10_env_frame initialContext).1 5 [.letN "a" "Int" (.intL 1 1 14) 1 5]
     (.objectRef "a" 1 20) 1 1 envMain,
   (c10_env_frame initialContext).2 1 "a" "Int" (.intL 1 1 9) 1 1 envMain envMain
     (.ty "Int") [.visitN "NodeInteger" 1 9] (by decide) (by decide)⟩

end Cool
